import Mathlib

/-!
Verification of the gnomAD QC pipeline specification against a shallow
embedding of the repository source.

Each section embeds the data model and operations of one source module:

* `GenerateFreq` — `gnomad_qc/v3/annotations/generate_freq_data.py`
* `RelatednessStage` — `gnomad_qc/v4/sample_qc/relatedness.py`
* `HgdpTgp` — `gnomad_qc/v3/create_release/create_hgdp_tgp_subset.py`
* `HardFilters` — `gnomad_qc/v4/sample_qc/hard_filters.py`
* `Ancestry` — `gnomad_qc/v4/sample_qc/assign_ancestry.py`

Hail tables are modelled as lists of row records; Hail expressions with
missingness are modelled with `Option`; Python runtime errors
(`ValueError`, `AttributeError`, `ZeroDivisionError`, failed writes) are
modelled as explicit error constructors.
-/

namespace GenerateFreq

/-- Official v3 subsets, from the `gnomad` dependency constant `SUBSETS`
(imported by `generate_freq_data.py`). -/
def SUBSETS : List String :=
  ["non_v2", "non_topmed", "non_cancer", "controls_and_biobanks", "non_neuro",
   "tgp", "hgdp"]

/-- Cohorts whose ancestry is stored as a subpopulation, from the `gnomad`
dependency constant `COHORTS_WITH_POP_STORED_AS_SUBPOP`. -/
def COHORTS_WITH_POP_STORED_AS_SUBPOP : List String := ["tgp", "hgdp"]

/-- Outcome of the subset-configuration validation at the top of `main` in
`generate_freq_data.py`. -/
inductive SubsetCheck where
  | invalidSubsetsError : SubsetCheck
  | mixedPopSubpopError : SubsetCheck
  | ok : SubsetCheck
  deriving Repr, DecidableEq

/-- Embeds `n_subsets_use_subpops` of `generate_freq_data.main`: the number of
requested subsets that belong to `COHORTS_WITH_POP_STORED_AS_SUBPOP`. -/
def nSubsetsUseSubpops (subsets : List String) : Nat :=
  (subsets.filter (fun s => COHORTS_WITH_POP_STORED_AS_SUBPOP.contains s)).length

/-- The subset validation of `generate_freq_data.main` (only reached when
`subsets` is non-empty).  The second test is embedded exactly as written in
the source: `n_subsets_use_subpops & (n_subsets_use_subpops != len(subsets))`,
a bitwise AND between the count and the 0/1 coercion of the boolean. -/
def validateSubsets (subsets : List String) : SubsetCheck :=
  let invalid := subsets.filter (fun s => ¬ SUBSETS.contains s)
  let n := nSubsetsUseSubpops subsets
  if invalid ≠ [] then .invalidSubsetsError
  else if Nat.land n (if n ≠ subsets.length then 1 else 0) ≠ 0 then
    .mixedPopSubpopError
  else .ok

/-- A request mixes ancestry conventions: at least one requested subset stores
ancestry as a subpopulation and at least one stores it as a population. -/
def mixesPopAndSubpop (subsets : List String) : Prop :=
  0 < nSubsetsUseSubpops subsets ∧ nSubsetsUseSubpops subsets < subsets.length

instance (subsets : List String) : Decidable (mixesPopAndSubpop subsets) := by
  unfold mixesPopAndSubpop; infer_instance

end GenerateFreq

namespace RelatednessStage

/-- Row-field schema of a Hail table, as a list of field names (the key field
comes first).  `Table.select` keeps the key and exactly the requested fields;
referring to a field that is not in the schema raises an `AttributeError`,
modelled as `none`. -/
def selectFields (schema requested : List String) : Option (List String) :=
  if requested.all (fun f => schema.contains f) then some ("s" :: requested)
  else none

/-- Embeds `Table.add_index(name)` appends the new index field to the schema. -/
def addIndexField (schema : List String) (name : String) : List String :=
  schema ++ [name]

/-- Schema of the rank table built in `relatedness.main` under
`--compute-related-samples-to-drop`, after
`rank_ht.select(hard_filtered, releasable, chr20_mean_dp, present_in_v3=...)`,
`order_by(...).add_index(name="rank")` and `key_by(s)`: the first select keeps
only the four named fields (plus the key), `order_by` keeps the schema, and
`add_index` appends `rank`. -/
def rankSchemaAfterIndex : List String :=
  addIndexField
    ("s" :: ["hard_filtered", "releasable", "chr20_mean_dp", "present_in_v3"])
    "rank"

/-- The final projection of the rank table in `relatedness.main`:
`rank_ht.select(rank_ht.filtered, rank_ht.rank)`, evaluated against the schema
produced by the earlier pipeline steps. -/
def rankTableFinalSelect : Option (List String) :=
  selectFields rankSchemaAfterIndex ["filtered", "rank"]

/-- One persisted write of the relatedness stage: output name paired with the
`overwrite` argument passed to the write call (`false` when the source passes
no `overwrite` argument, Hail's default). -/
def relatednessWriteCalls (overwrite : Bool) : List (String × Bool) :=
  [("cuking_input_parquet", overwrite),
   ("relatedness", overwrite),
   ("pca_samples_rankings", false),
   ("pca_related_samples_to_drop", false)]

/-- A Hail `write` with `overwrite=False` fails when the output already
exists. -/
def writeSucceeds (existingOutputs : List String) (w : String × Bool) : Bool :=
  w.2 || ¬ existingOutputs.contains w.1

end RelatednessStage

namespace HgdpTgp

/-- Outcome of the population-PCA-outlier consistency check in
`get_sample_qc_filter_struct_expr`. -/
inductive OutlierCheck where
  | countMismatchError : OutlierCheck
  | ok : OutlierCheck
  deriving Repr, DecidableEq

/-- The consistency check of `get_sample_qc_filter_struct_expr`, embedded
exactly as written: `num_outliers` is the length of the outlier list,
`num_outliers_found` counts samples of the table that are in the list, and the
raise condition compares `hl.eval(hl.len(set_to_remove))` — again the length
of the outlier list — against `num_outliers`. -/
def outlierConsistencyCheck (setToRemove : List String)
    (sampleIds : List String) : OutlierCheck :=
  let numOutliers := setToRemove.length
  let _numOutliersFound :=
    (sampleIds.filter (fun s => setToRemove.contains s)).length
  if setToRemove.length ≠ numOutliers then .countMismatchError
  else .ok

/-- Embeds `num_outliers_found` of `get_sample_qc_filter_struct_expr`. -/
def numOutliersFound (setToRemove : List String)
    (sampleIds : List String) : Nat :=
  (sampleIds.filter (fun s => setToRemove.contains s)).length

/-- One row of the pc_relate pair table consumed by
`get_relatedness_set_ht`: sample pair (i, j) with kinship and IBD sharing
proportions. -/
structure PairRow where
  i : String
  j : String
  kin : ℚ
  ibd0 : ℚ
  ibd1 : ℚ
  ibd2 : ℚ
  deriving Repr, DecidableEq

/-- The `relationship_struct` of `get_relatedness_set_ht` applied with the
partner taken from the `j` role. -/
def relStructOfJ (p : PairRow) : String × ℚ × ℚ × ℚ × ℚ :=
  (p.j, p.kin, p.ibd0, p.ibd1, p.ibd2)

/-- The `relationship_struct` of `get_relatedness_set_ht` applied with the
partner taken from the `i` role. -/
def relStructOfI (p : PairRow) : String × ℚ × ℚ × ℚ × ℚ :=
  (p.i, p.kin, p.ibd0, p.ibd1, p.ibd2)

/-- One row of the per-sample relatedness table: sample id together with the
`related_samples` set of relationship structs. -/
structure RelRow where
  s : String
  related_samples : Finset (String × ℚ × ℚ × ℚ × ℚ)
  deriving DecidableEq

/-- Embeds `relatedness_ht.group_by(s=relatedness_ht.i.s).aggregate(related_samples=
collect_as_set(struct(s=j.s, ...)))`: one row per distinct `i` sample,
holding the set of its `j`-role partners. -/
def groupByI (pairs : List PairRow) : List RelRow :=
  ((pairs.map PairRow.i).dedup).map (fun a =>
    ⟨a, ((pairs.filter (fun p => p.i == a)).map relStructOfJ).toFinset⟩)

/-- The symmetric group-by on the `j` sample of each pair. -/
def groupByJ (pairs : List PairRow) : List RelRow :=
  ((pairs.map PairRow.j).dedup).map (fun a =>
    ⟨a, ((pairs.filter (fun p => p.j == a)).map relStructOfI).toFinset⟩)

/-- Embeds `get_relatedness_set_ht`: the union (`Table.union`, a row concatenation)
of the two per-role group-by tables. -/
def getRelatednessSetHt (pairs : List PairRow) : List RelRow :=
  groupByI pairs ++ groupByJ pairs

/-- The rows of a per-sample table whose key is `a`. -/
def rowsWithKey (rows : List RelRow) (a : String) : List RelRow :=
  rows.filter (fun r => r.s == a)

/-- The `relatedness_inference.related_samples` annotation built in
`prepare_sample_annotations`:
`hl.coalesce(relatedness_ht[meta_ht.key].related_samples, hl.empty_set(...))`.
The join of a sample against the per-sample table yields the first row with
that key, or missing when there is none; `coalesce` replaces missing with the
empty set. -/
def relatedSamplesAnn (pairs : List PairRow) (a : String) :
    Finset (String × ℚ × ℚ × ℚ × ℚ) :=
  match (getRelatednessSetHt pairs).find? (fun r => r.s == a) with
  | some r => r.related_samples
  | none => ∅

end HgdpTgp

namespace HardFilters

/-- Per-sample raw metrics read by `compute_hard_filters` (base configuration:
`min_cov=None` and `min_qc_mt_adj_callrate=None`, so no coverage or callrate
predicate is added; the sex predicates are controlled by
`include_sex_filter`). -/
structure SampleMetrics where
  s : String
  n_singleton : ℚ
  r_het_hom_var : ℚ
  bases_dp_over_1 : ℚ
  bases_dp_over_20 : ℚ
  contam_rate : ℚ
  chimeras_rate : ℚ
  failed_fingerprinting : Bool
  sex_karyotype : String
  deriving Repr, DecidableEq

/-- The threshold arguments of `compute_hard_filters`. -/
structure Cutoffs where
  max_n_singleton : ℚ
  max_r_het_hom_var : ℚ
  min_bases_dp_over_1 : ℚ
  min_bases_dp_over_20 : ℚ
  max_contamination : ℚ
  max_chimera : ℚ
  deriving Repr, DecidableEq

/-- The default thresholds of `compute_hard_filters`
(5000, 10, 5e7, 4e7, 0.05, 0.05). -/
def defaultCutoffs : Cutoffs :=
  ⟨5000, 10, 50000000, 40000000, 5/100, 5/100⟩

/-- The `sample_qc_metric_hard_filters` dictionary of `compute_hard_filters`,
in source order: each entry pairs the literal reason string with its
predicate over the raw bi-allelic sample QC metrics. -/
def sampleQcMetricFilterList (c : Cutoffs) (m : SampleMetrics) :
    List (String × Bool) :=
  [("high_n_singleton", m.n_singleton > c.max_n_singleton),
   ("high_r_het_hom_var", m.r_het_hom_var > c.max_r_het_hom_var),
   ("low_bases_dp_over_1", m.bases_dp_over_1 < c.min_bases_dp_over_1),
   ("low_bases_dp_over_20", m.bases_dp_over_20 < c.min_bases_dp_over_20)]

/-- The `hard_filters` dictionary of `compute_hard_filters`, in source order:
fingerprinting, combined sample QC metrics, contamination, chimera, and (when
`include_sex_filter` is set) the two sex predicates. -/
def hardFilterList (includeSexFilter : Bool) (c : Cutoffs)
    (m : SampleMetrics) : List (String × Bool) :=
  [("failed_fingerprinting", m.failed_fingerprinting),
   ("sample_qc_metrics",
      (m.n_singleton > c.max_n_singleton : Bool)
      || (m.r_het_hom_var > c.max_r_het_hom_var : Bool)
      || (m.bases_dp_over_1 < c.min_bases_dp_over_1 : Bool)
      || (m.bases_dp_over_20 < c.min_bases_dp_over_20 : Bool)),
   ("contamination", m.contam_rate > c.max_contamination),
   ("chimera", m.chimeras_rate > c.max_chimera)]
  ++ (if includeSexFilter then
        [("ambiguous_sex", m.sex_karyotype == "ambiguous"),
         ("sex_aneuploidy",
            ¬ (["ambiguous", "XX", "XY"].contains m.sex_karyotype))]
      else [])

/-- Embeds `add_filters_expr` of the `gnomad` dependency, as called by
`compute_hard_filters`: fold the union of a singleton set per dictionary
entry whose condition holds, starting from the empty set. -/
def addFiltersExpr (filters : List (String × Bool)) : Finset String :=
  filters.foldl (fun acc p => if p.2 then acc ∪ {p.1} else acc) ∅

/-- The per-sample hard-filter reason set computed by
`compute_hard_filters`. -/
def hardFilterReasons (includeSexFilter : Bool) (c : Cutoffs)
    (m : SampleMetrics) : Finset String :=
  addFiltersExpr (hardFilterList includeSexFilter c m)

/-- One row of the table returned by `compute_hard_filters`. -/
structure HardFilterRow where
  s : String
  hard_filters : Finset String
  sample_qc_metric_hard_filters : Finset String
  deriving DecidableEq

/-- The `ht.annotate(hard_filters=..., sample_qc_metric_hard_filters=...)`
step of `compute_hard_filters`, for one sample. -/
def annotateRow (includeSexFilter : Bool) (c : Cutoffs)
    (m : SampleMetrics) : HardFilterRow :=
  ⟨m.s, hardFilterReasons includeSexFilter c m,
    addFiltersExpr (sampleQcMetricFilterList c m)⟩

/-- Embeds `compute_hard_filters`: annotate every input sample with its reason sets,
then keep only samples failing hard filters
(`ht.filter(hl.len(ht.hard_filters) > 0)`). -/
def computeHardFilters (includeSexFilter : Bool) (c : Cutoffs)
    (samples : List SampleMetrics) : List HardFilterRow :=
  (samples.map (annotateRow includeSexFilter c)).filter
    (fun r => 0 < r.hard_filters.card)

end HardFilters

section FreqSlice

/-- A frequency-metadata entry: a dictionary from stratification dimension
name (group, pop, sex, subset, downsampling, ...) to label, modelled as an
association list.  Python's `"downsampling" not in x` tests key
membership. -/
def FreqMeta : Type := List (String × String)

instance : DecidableEq FreqMeta := by unfold FreqMeta; infer_instance

/-- Key membership in a metadata entry (`k in x` on a Python dict). -/
def FreqMeta.hasKey (m : FreqMeta) (k : String) : Bool :=
  (m.map Prod.fst).contains k

/-- The filter applied to the full release `freq_meta` in
`prepare_variant_annotations`: keep entries with neither a `downsampling` nor
a `subset` key. -/
def keepMeta (m : FreqMeta) : Bool :=
  ¬ m.hasKey "downsampling" && ¬ m.hasKey "subset"

/-- Embeds `freq_meta` of `prepare_variant_annotations`: the entries of the full
release metadata list without downsampling and subset entries. -/
def strippedFreqMeta (fullMeta : List FreqMeta) : List FreqMeta :=
  fullMeta.filter keepMeta

/-- Embeds `index_keep` of `prepare_variant_annotations`: the positions of the kept
metadata entries in the full release metadata list. -/
def indexKeep (fullMeta : List FreqMeta) : List Nat :=
  (fullMeta.enum.filter (fun p => keepMeta p.2)).map Prod.fst

/-- Embeds `gnomad_freq` of `prepare_variant_annotations`: the positional slice
`keyed_release.freq[: len(freq_meta)]` of a variant row's full frequency
array. -/
def gnomadFreqSlice {α : Type} (fullMeta : List FreqMeta) (freq : List α) :
    List α :=
  freq.take (strippedFreqMeta fullMeta).length

end FreqSlice

namespace Ancestry

/-- One row of the PCA-scores table prepared by `prep_ht_for_rf`: sample id,
the (possibly missing) `training_pop` label, and the `hgdp_or_tgp` flag. -/
structure ScoreRow where
  s : Nat
  training_pop : Option String
  hgdp_or_tgp : Bool
  deriving Repr, DecidableEq

/-- One row of the table returned by `assign_population_pcs`: the input
`training_pop` plus the assigned `pop`, which is always defined (below
`min_prob` it is the sentinel `missing_label`). -/
structure PopRow where
  s : Nat
  training_pop : Option String
  pop : String
  deriving Repr, DecidableEq

/-- Embeds `assign_population_pcs` of the `gnomad` dependency, abstracted: the fitted
random-forest classifier is an oracle `fit` that maps the scores table it was
trained on and a sample id to the assigned label. -/
def assignPopulationPcs (fit : List ScoreRow → Nat → String)
    (scores : List ScoreRow) : List PopRow :=
  scores.map (fun r => ⟨r.s, r.training_pop, fit scores r.s⟩)

/-- Embeds `n_mislabeled_samples` of `calculate_mislabeled_training`:
`count_where(training_pop != pop)`.  In Hail a comparison with a missing
`training_pop` is missing and is not counted. -/
def nMislabeled (rows : List PopRow) : Nat :=
  (rows.filter (fun r =>
    match r.training_pop with
    | some t => t != r.pop
    | none => false)).length

/-- Embeds `defined_training_pops` of `calculate_mislabeled_training`:
`count_where(is_defined(training_pop))`. -/
def definedTraining (rows : List PopRow) : Nat :=
  (rows.filter (fun r => r.training_pop.isSome)).length

/-- Embeds `calculate_mislabeled_training`: returns the mislabel count and the
proportion `n_mislabeled_samples / defined_training_pops`.  When no sample has
a defined training label the Python division raises `ZeroDivisionError`,
modelled as `none`. -/
def calcMislabeled (rows : List PopRow) : Option (Nat × ℚ) :=
  let n := nMislabeled rows
  let d := definedTraining rows
  if d = 0 then none else some (n, (n : ℚ) / (d : ℚ))

/-- The training-set pruning inside the `assign_pops` loop:
`training_pop = or_missing((pop_ht.training_pop == pop_ht[pop_field]) |
scores.hgdp_or_tgp, scores.training_pop)`.  A sample keeps its training label
iff the label is defined and either it matches the assigned pop or the sample
is in HGDP/1KG; the pop row is found by key join against the fitted table. -/
def pruneScores (scores : List ScoreRow) (popRows : List PopRow) :
    List ScoreRow :=
  scores.map (fun r =>
    { r with
      training_pop :=
        match r.training_pop with
        | none => none
        | some t =>
          match popRows.find? (fun p => p.s == r.s) with
          | some p => if p.pop = t ∨ r.hgdp_or_tgp then some t else none
          | none => if r.hgdp_or_tgp then some t else none })

/-- Outcome of `assign_pops`. -/
inductive RfResult where
  /-- `ValueError` when both cutoff arguments are set (or the `TypeError`
  when neither is set and the loop comparison hits `None`). -/
  | argError : RfResult
  /-- The loop is still running when the modelling fuel runs out. -/
  | fuelOut : RfResult
  /-- The `ZeroDivisionError` raised by `calculate_mislabeled_training`
  when the training set is empty, tagged with the fit count reached. -/
  | emptyTrainingError (iterations : Nat) : RfResult
  /-- Normal termination: `pop_assignment_iterations`, the final
  `n_mislabeled_training_samples` and `prop_mislabeled_training_samples`,
  and the final assignment table. -/
  | ok (iterations nMis : Nat) (propMis : ℚ) (finalPop : List PopRow) :
      RfResult
  deriving Repr, DecidableEq

/-- Embeds `mislabeled = n_mislabeled_samples if max_number_mislabeled_training_samples
else prop_mislabeled_samples`: Python truthiness, so the count is used exactly
when the number cutoff is set and non-zero. -/
def mislabeledSelect (maxNum : Option Nat) (n : Nat) (p : ℚ) : ℚ :=
  match maxNum with
  | some m => if m ≠ 0 then (n : ℚ) else p
  | none => p

/-- The `while mislabeled > max_mislabeled` loop of `assign_pops`.  Each pass
prunes the mislabeled training samples (keeping HGDP/1KG ones), refits, and
recomputes the mislabel statistics; `iter` counts fits performed so far. -/
def loopGo (fit : List ScoreRow → Nat → String) (maxNum : Option Nat)
    (maxQ : ℚ) :
    Nat → List ScoreRow → List PopRow → Nat → ℚ → Nat → RfResult
  | 0, scores, popRows, n, p, iter =>
    if mislabeledSelect maxNum n p > maxQ then .fuelOut
    else .ok iter n p popRows
  | fuel + 1, scores, popRows, n, p, iter =>
    if mislabeledSelect maxNum n p > maxQ then
      let scores' := pruneScores scores popRows
      let popRows' := assignPopulationPcs fit scores'
      match calcMislabeled popRows' with
      | none => .emptyTrainingError (iter + 1)
      | some (n', p') =>
        loopGo fit maxNum maxQ fuel scores' popRows' n' p' (iter + 1)
    else .ok iter n p popRows

/-- Embeds `assign_pops` (number/proportion cutoff handling, first fit, and the
convergence loop).  `maxNum` and `maxProp` are
`max_number_mislabeled_training_samples` and
`max_proportion_mislabeled_training_samples`. -/
def assignPops (fit : List ScoreRow → Nat → String) (maxNum : Option Nat)
    (maxProp : Option ℚ) (scores : List ScoreRow) (fuel : Nat) : RfResult :=
  match maxNum, maxProp with
  | some _, some _ => .argError
  | none, none => .argError
  | _, _ =>
    let maxQ : ℚ :=
      match maxProp with
      | some p => p
      | none => ((maxNum.getD 0 : Nat) : ℚ)
    let popRows := assignPopulationPcs fit scores
    match calcMislabeled popRows with
    | none => .emptyTrainingError 1
    | some (n, p) => loopGo fit maxNum maxQ fuel scores popRows n p 1

end Ancestry


namespace Examples

/-- A pair table in which sample `b` appears in the `i` role of one pair and
the `j` role of another. -/
def pairsBoth : List HgdpTgp.PairRow :=
  [⟨"a", "b", 1, 0, 1, 0⟩, ⟨"b", "c", 2, 0, 0, 1⟩]

/-- Concrete integer-valued hard-filter cutoffs used for the concrete
evaluations. -/
def exCutoffs : HardFilters.Cutoffs := ⟨2, 2, 5, 5, 1, 1⟩

/-- A sample passing every hard-filter predicate at `exCutoffs`. -/
def passingSample : HardFilters.SampleMetrics :=
  ⟨"pass1", 1, 1, 6, 6, 0, 0, false, "XY"⟩

/-- A sample whose contamination rate (2) and chimera rate (3) both exceed
the `exCutoffs` thresholds (1 and 1). -/
def failingSample : HardFilters.SampleMetrics :=
  ⟨"bad1", 1, 1, 6, 6, 2, 3, false, "XY"⟩

/-- Ten training samples: ids 0-6 labelled `afr`, ids 7-9 labelled `eas`,
none in HGDP/1KG. -/
def exScores10 : List Ancestry.ScoreRow :=
  [⟨0, some "afr", false⟩, ⟨1, some "afr", false⟩, ⟨2, some "afr", false⟩,
   ⟨3, some "afr", false⟩, ⟨4, some "afr", false⟩, ⟨5, some "afr", false⟩,
   ⟨6, some "afr", false⟩, ⟨7, some "eas", false⟩, ⟨8, some "eas", false⟩,
   ⟨9, some "eas", false⟩]

/-- A classifier oracle that assigns `afr` to every sample, so exactly the
three `eas`-labelled training samples of `exScores10` are mislabeled. -/
def exFit : List Ancestry.ScoreRow → Nat → String := fun _ _ => "afr"

/-- A classifier oracle that assigns `eas` to every sample. -/
def exFitEas : List Ancestry.ScoreRow → Nat → String := fun _ _ => "eas"

/-- A scores table with no defined training label. -/
def exScoresNoTrain : List Ancestry.ScoreRow := [⟨0, none, false⟩]

/-- A single training sample labelled `afr`, not in HGDP/1KG. -/
def exScoresOne : List Ancestry.ScoreRow := [⟨0, some "afr", false⟩]

/-- The fitted table for `exScoresOne` under `exFitEas`: its one training
sample is mislabeled, and pruning it empties the training set. -/
def exPopOne : List Ancestry.PopRow :=
  Ancestry.assignPopulationPcs exFitEas exScoresOne

/-- Concrete full release `freq_meta`: two main entries followed by a
downsampling entry and a subset entry. -/
def fullMetaEx : List FreqMeta :=
  [[("group", "adj")], [("group", "raw")],
   [("downsampling", "10"), ("group", "adj")],
   [("subset", "tgp"), ("group", "adj")]]

/-- A concrete per-variant frequency array parallel to `fullMetaEx`. -/
def freqNatEx : List Nat := [10, 20, 30, 40]

/-- A concrete meaning relation for `fullMetaEx`/`freqNatEx`: a metadata
entry describes exactly the frequency value it is zipped with. -/
def describesEx (m : FreqMeta) (q : Nat) : Prop :=
  (m, q) ∈ fullMetaEx.zip freqNatEx

instance (m : FreqMeta) (q : Nat) : Decidable (describesEx m q) := by
  unfold describesEx; infer_instance

end Examples

/-- C2: the claim says that any non-empty subset request mixing at least one
subpopulation-storing cohort with at least one population-storing cohort is
rejected with a `ValueError` before aggregation.  On the code, the request
`["tgp", "hgdp", "non_topmed"]` mixes two subpop cohorts with one pop cohort,
yet the bitwise test `n_subsets_use_subpops & (n_subsets_use_subpops !=
len(subsets))` evaluates to `2 & 1 = 0` and no error is raised. -/
theorem mixed_subpop_subsets_not_rejected :
    GenerateFreq.mixesPopAndSubpop ["tgp", "hgdp", "non_topmed"]
    ∧ (["tgp", "hgdp", "non_topmed"] : List String).all
        (fun s => GenerateFreq.SUBSETS.contains s) = true
    ∧ GenerateFreq.validateSubsets ["tgp", "hgdp", "non_topmed"]
        = GenerateFreq.SubsetCheck.ok := by
  decide

/-- C3: the claim says the rank table carries the rank and the hard-filter
flag.  On the code, after `rank_ht.select(hard_filtered, releasable,
chr20_mean_dp, present_in_v3=...)` the schema holds `hard_filtered` but no
field named `filtered`, so the final `rank_ht.select(rank_ht.filtered,
rank_ht.rank)` raises an `AttributeError` (modelled as `none`) on every
input. -/
theorem rank_table_final_select_attribute_error :
    RelatednessStage.rankSchemaAfterIndex.contains "hard_filtered" = true
    ∧ RelatednessStage.rankSchemaAfterIndex.contains "rank" = true
    ∧ RelatednessStage.rankSchemaAfterIndex.contains "filtered" = false
    ∧ RelatednessStage.rankTableFinalSelect = none := by
  decide

/-- C9: the claim says a mismatch between the expected and found
population-PCA-outlier counts raises a hard error.  On the code, the raise
condition compares the expected count with itself, so the check passes even
when none of the expected outliers is found in the sample table. -/
theorem outlier_count_check_never_raises :
    (∀ setToRemove sampleIds : List String,
      HgdpTgp.outlierConsistencyCheck setToRemove sampleIds
        = HgdpTgp.OutlierCheck.ok)
    ∧ HgdpTgp.numOutliersFound ["HGDP00001"] ["otherSample"] = 0
    ∧ (["HGDP00001"] : List String).length = 1
    ∧ HgdpTgp.outlierConsistencyCheck ["HGDP00001"] ["otherSample"]
        = HgdpTgp.OutlierCheck.ok := by
  refine ⟨fun setToRemove sampleIds => ?_, by decide, by decide, by decide⟩
  simp [HgdpTgp.outlierConsistencyCheck]

/-- C10: the claim says every write boundary of the relatedness stage is
gated by the explicit overwrite flag.  On the code, even with
`--overwrite`, the rank-table write and the samples-to-drop write pass no
`overwrite` argument (Hail default `False`), so they fail whenever the
output of a previous run exists. -/
theorem relatedness_stage_rank_write_not_gated :
    ("pca_samples_rankings", false) ∈ RelatednessStage.relatednessWriteCalls true
    ∧ ("pca_related_samples_to_drop", false)
        ∈ RelatednessStage.relatednessWriteCalls true
    ∧ RelatednessStage.writeSucceeds ["pca_samples_rankings"]
        ("pca_samples_rankings", false) = false
    ∧ RelatednessStage.writeSucceeds ["relatedness"] ("relatedness", true)
        = true := by
  decide

set_option maxHeartbeats 1600000 in
/-- C6 counterexample: on the pair table `[(a,b), (b,c)]` sample `b` appears
in both roles, and `get_relatedness_set_ht` yields two rows keyed `b` (the
key list is not duplicate-free), neither of which holds the combined set
of both partners of `b`. -/
theorem relatedness_set_ht_duplicate_key_counterexample :
    ¬ ((HgdpTgp.getRelatednessSetHt Examples.pairsBoth).map
        HgdpTgp.RelRow.s).Nodup
    ∧ (HgdpTgp.rowsWithKey (HgdpTgp.getRelatednessSetHt Examples.pairsBoth)
        "b").length = 2
    ∧ (∀ r ∈ HgdpTgp.rowsWithKey
        (HgdpTgp.getRelatednessSetHt Examples.pairsBoth) "b",
        r.related_samples.card = 1)
    ∧ ((HgdpTgp.rowsWithKey (HgdpTgp.getRelatednessSetHt Examples.pairsBoth)
          "b").foldr (fun (r : HgdpTgp.RelRow) acc => r.related_samples ∪ acc)
          ∅).card = 2 := by
  decide

/-- C8 counterexample: the claim says a sample passing all hard filters is
represented in the output of `compute_hard_filters` with an empty reason
set.  On the code, `compute_hard_filters` ends with
`ht.filter(hl.len(ht.hard_filters) > 0)`, so a passing sample is absent from
the returned table. -/
theorem compute_hard_filters_passing_sample_absent :
    (HardFilters.hardFilterReasons false Examples.exCutoffs
        Examples.passingSample).card = 0
    ∧ (HardFilters.computeHardFilters false Examples.exCutoffs
        [Examples.passingSample]).length = 0 := by
  decide

namespace HgdpTgp

lemma length_filter_beq_of_nodup (l : List String) (nd : l.Nodup) (a : String) :
    (l.filter (fun x => x == a)).length = if a ∈ l then 1 else 0 := by
  induction l with
  | nil => simp
  | cons x t ih =>
    rw [List.nodup_cons] at nd
    by_cases hx : x = a
    · subst hx
      have hnot : x ∉ t := nd.1
      simp [List.filter_cons, ih nd.2, hnot]
    · have hb : (x == a) = false := by simp [hx]
      simp [List.filter_cons, hb, ih nd.2, hx, Ne.symm hx]

lemma rowsWithKey_groupByI_length (pairs : List PairRow) (a : String) :
    (rowsWithKey (groupByI pairs) a).length
      = if a ∈ pairs.map PairRow.i then 1 else 0 := by
  unfold rowsWithKey groupByI
  rw [List.filter_map]
  rw [List.length_map]
  have h := length_filter_beq_of_nodup ((pairs.map PairRow.i).dedup)
    (List.nodup_dedup _) a
  simpa [Function.comp, List.mem_dedup] using h

lemma rowsWithKey_groupByJ_length (pairs : List PairRow) (a : String) :
    (rowsWithKey (groupByJ pairs) a).length
      = if a ∈ pairs.map PairRow.j then 1 else 0 := by
  unfold rowsWithKey groupByJ
  rw [List.filter_map]
  rw [List.length_map]
  have h := length_filter_beq_of_nodup ((pairs.map PairRow.j).dedup)
    (List.nodup_dedup _) a
  simpa [Function.comp, List.mem_dedup] using h

lemma keys_groupByI (pairs : List PairRow) (r : RelRow) (hr : r ∈ groupByI pairs) :
    r.s ∈ pairs.map PairRow.i := by
  unfold groupByI at hr
  rcases List.mem_map.mp hr with ⟨x, hx, rfl⟩
  exact List.mem_dedup.mp hx

lemma keys_groupByJ (pairs : List PairRow) (r : RelRow) (hr : r ∈ groupByJ pairs) :
    r.s ∈ pairs.map PairRow.j := by
  unfold groupByJ at hr
  rcases List.mem_map.mp hr with ⟨x, hx, rfl⟩
  exact List.mem_dedup.mp hx

end HgdpTgp

/-- C6, amended: the table built by the v3 `get_relatedness_set_ht` has one
row per (sample, role) rather than one combined row per sample: a sample gets
one row with its `j`-role partner set if it occurs as `i`, plus one row with
its `i`-role partner set if it occurs as `j` — so a sample occurring in both
roles has two rows and the key is not unique.  A sample with no qualifying
pairs has no row, and the downstream `hl.coalesce` in
`prepare_sample_annotations` gives it the empty set, never a missing
value. -/
theorem relatedness_set_ht_per_role_rows (pairs : List HgdpTgp.PairRow)
    (a : String) :
    (HgdpTgp.rowsWithKey (HgdpTgp.getRelatednessSetHt pairs) a).length
      = (if a ∈ pairs.map HgdpTgp.PairRow.i then 1 else 0)
        + (if a ∈ pairs.map HgdpTgp.PairRow.j then 1 else 0)
    ∧ (a ∈ pairs.map HgdpTgp.PairRow.i →
        (⟨a, ((pairs.filter (fun p => p.i == a)).map
            HgdpTgp.relStructOfJ).toFinset⟩ : HgdpTgp.RelRow)
          ∈ HgdpTgp.rowsWithKey (HgdpTgp.getRelatednessSetHt pairs) a)
    ∧ (a ∈ pairs.map HgdpTgp.PairRow.j →
        (⟨a, ((pairs.filter (fun p => p.j == a)).map
            HgdpTgp.relStructOfI).toFinset⟩ : HgdpTgp.RelRow)
          ∈ HgdpTgp.rowsWithKey (HgdpTgp.getRelatednessSetHt pairs) a)
    ∧ (a ∉ pairs.map HgdpTgp.PairRow.i → a ∉ pairs.map HgdpTgp.PairRow.j →
        HgdpTgp.relatedSamplesAnn pairs a = ∅) := by
  refine ⟨?_, ?_, ?_, ?_⟩
  · have hsplit : HgdpTgp.rowsWithKey (HgdpTgp.getRelatednessSetHt pairs) a
        = HgdpTgp.rowsWithKey (HgdpTgp.groupByI pairs) a
          ++ HgdpTgp.rowsWithKey (HgdpTgp.groupByJ pairs) a := by
      unfold HgdpTgp.rowsWithKey HgdpTgp.getRelatednessSetHt
      exact List.filter_append _ _
    rw [hsplit, List.length_append, HgdpTgp.rowsWithKey_groupByI_length,
      HgdpTgp.rowsWithKey_groupByJ_length]
  · intro ha
    unfold HgdpTgp.rowsWithKey
    refine List.mem_filter.mpr ⟨?_, by simp⟩
    unfold HgdpTgp.getRelatednessSetHt
    refine List.mem_append.mpr (Or.inl ?_)
    unfold HgdpTgp.groupByI
    exact List.mem_map.mpr ⟨a, List.mem_dedup.mpr ha, rfl⟩
  · intro ha
    unfold HgdpTgp.rowsWithKey
    refine List.mem_filter.mpr ⟨?_, by simp⟩
    unfold HgdpTgp.getRelatednessSetHt
    refine List.mem_append.mpr (Or.inr ?_)
    unfold HgdpTgp.groupByJ
    exact List.mem_map.mpr ⟨a, List.mem_dedup.mpr ha, rfl⟩
  · intro hi hj
    unfold HgdpTgp.relatedSamplesAnn
    have hnone : (HgdpTgp.getRelatednessSetHt pairs).find?
        (fun r => r.s == a) = none := by
      refine List.find?_eq_none.mpr ?_
      intro r hr
      rcases List.mem_append.mp hr with h | h
      · have := HgdpTgp.keys_groupByI pairs r h
        simp only [beq_iff_eq]
        intro hra
        exact hi (hra ▸ this)
      · have := HgdpTgp.keys_groupByJ pairs r h
        simp only [beq_iff_eq]
        intro hra
        exact hj (hra ▸ this)
    rw [hnone]

/-- C6 witness: on the concrete pair table, sample `b` (present in both
roles) has two rows, and a sample in no pair gets the empty coalesced set. -/
theorem relatedness_set_ht_per_role_rows_witness :
    (HgdpTgp.rowsWithKey (HgdpTgp.getRelatednessSetHt Examples.pairsBoth)
      "b").length = 2
    ∧ HgdpTgp.relatedSamplesAnn Examples.pairsBoth "zzz" = ∅ := by
  constructor
  · have h := (relatedness_set_ht_per_role_rows Examples.pairsBoth "b").1
    rw [h]; decide
  · exact (relatedness_set_ht_per_role_rows Examples.pairsBoth "zzz").2.2.2
      (by decide) (by decide)

namespace HardFilters

lemma mem_addFiltersExpr_aux (x : String) :
    ∀ (fs : List (String × Bool)) (acc : Finset String),
      x ∈ fs.foldl (fun acc p => if p.2 then acc ∪ {p.1} else acc) acc
        ↔ x ∈ acc ∨ ∃ p ∈ fs, p.1 = x ∧ p.2 = true := by
  intro fs
  induction fs with
  | nil => intro acc; simp
  | cons q t ih =>
    intro acc
    rw [List.foldl_cons, ih]
    by_cases hq : q.2 = true
    · by_cases hx : q.1 = x
      · simp [hq, hx, Finset.mem_union]
        try tauto
      · simp [hq, hx, Finset.mem_union, Ne.symm hx]
        try tauto
    · simp [hq]
      try tauto

lemma mem_addFiltersExpr (fs : List (String × Bool)) (x : String) :
    x ∈ addFiltersExpr fs ↔ ∃ p ∈ fs, p.1 = x ∧ p.2 = true := by
  unfold addFiltersExpr
  rw [mem_addFiltersExpr_aux]
  simp

end HardFilters

/-- C7: the contamination and chimera predicates of `compute_hard_filters`
are each evaluated independently from the raw metrics (membership of each
reason string in the reason set depends only on its own raw-metric
comparison), and a sample exceeding both thresholds accumulates both literal
reason strings, so its reason set has size at least 2. -/
theorem hard_filters_contamination_chimera_accumulate (inc : Bool)
    (c : HardFilters.Cutoffs) (m : HardFilters.SampleMetrics) :
    ("contamination" ∈ HardFilters.hardFilterReasons inc c m
      ↔ m.contam_rate > c.max_contamination)
    ∧ ("chimera" ∈ HardFilters.hardFilterReasons inc c m
      ↔ m.chimeras_rate > c.max_chimera)
    ∧ (m.contam_rate > c.max_contamination → m.chimeras_rate > c.max_chimera →
        "contamination" ∈ HardFilters.hardFilterReasons inc c m
        ∧ "chimera" ∈ HardFilters.hardFilterReasons inc c m
        ∧ 2 ≤ (HardFilters.hardFilterReasons inc c m).card) := by
  have hc : "contamination" ∈ HardFilters.hardFilterReasons inc c m
      ↔ m.contam_rate > c.max_contamination := by
    rw [HardFilters.hardFilterReasons, HardFilters.mem_addFiltersExpr]
    cases inc <;> simp [HardFilters.hardFilterList, decide_eq_true_eq]
  have hch : "chimera" ∈ HardFilters.hardFilterReasons inc c m
      ↔ m.chimeras_rate > c.max_chimera := by
    rw [HardFilters.hardFilterReasons, HardFilters.mem_addFiltersExpr]
    cases inc <;> simp [HardFilters.hardFilterList, decide_eq_true_eq]
  refine ⟨hc, hch, fun h1 h2 => ⟨hc.mpr h1, hch.mpr h2, ?_⟩⟩
  have hsub : ({"contamination", "chimera"} : Finset String)
      ⊆ HardFilters.hardFilterReasons inc c m := by
    intro x hx
    rcases Finset.mem_insert.mp hx with rfl | hx
    · exact hc.mpr h1
    · rw [Finset.mem_singleton] at hx
      subst hx
      exact hch.mpr h2
  have h2card : ({"contamination", "chimera"} : Finset String).card = 2 := by
    decide
  calc 2 = ({"contamination", "chimera"} : Finset String).card := h2card.symm
    _ ≤ _ := Finset.card_le_card hsub

/-- C7 witness: the concrete sample exceeding both integer cutoffs carries
both reason strings and a reason set of size at least two. -/
theorem hard_filters_contamination_chimera_accumulate_witness :
    "contamination" ∈ HardFilters.hardFilterReasons false Examples.exCutoffs
        Examples.failingSample
    ∧ "chimera" ∈ HardFilters.hardFilterReasons false Examples.exCutoffs
        Examples.failingSample
    ∧ 2 ≤ (HardFilters.hardFilterReasons false Examples.exCutoffs
        Examples.failingSample).card :=
  (hard_filters_contamination_chimera_accumulate false Examples.exCutoffs
    Examples.failingSample).2.2 (by decide) (by decide)

/-- C8, amended: `compute_hard_filters` computes, for every input sample, a
reason set purely from that sample's raw metrics, but it returns only the
samples whose reason set is non-empty (`ht.filter(hl.len(ht.hard_filters) >
0)`): a passing sample is absent from the returned table rather than being
represented with an empty set; every returned row carries its non-empty
reason set plus the derived `sample_qc_metric_hard_filters` field. -/
theorem compute_hard_filters_returns_failing_only (inc : Bool)
    (c : HardFilters.Cutoffs) (samples : List HardFilters.SampleMetrics) :
    (∀ r ∈ HardFilters.computeHardFilters inc c samples,
       (∃ m ∈ samples, r = HardFilters.annotateRow inc c m)
       ∧ 0 < r.hard_filters.card)
    ∧ (∀ m ∈ samples, 0 < (HardFilters.hardFilterReasons inc c m).card →
         HardFilters.annotateRow inc c m
           ∈ HardFilters.computeHardFilters inc c samples)
    ∧ (∀ m ∈ samples, (HardFilters.hardFilterReasons inc c m).card = 0 →
         HardFilters.annotateRow inc c m
           ∉ HardFilters.computeHardFilters inc c samples) := by
  refine ⟨?_, ?_, ?_⟩
  · intro r hr
    unfold HardFilters.computeHardFilters at hr
    have hmem := List.mem_filter.mp hr
    rcases List.mem_map.mp hmem.1 with ⟨m, hm, rfl⟩
    refine ⟨⟨m, hm, rfl⟩, ?_⟩
    simpa using hmem.2
  · intro m hm hpos
    unfold HardFilters.computeHardFilters
    refine List.mem_filter.mpr ⟨List.mem_map.mpr ⟨m, hm, rfl⟩, ?_⟩
    simpa [HardFilters.annotateRow] using hpos
  · intro m hm hzero hmem
    unfold HardFilters.computeHardFilters at hmem
    have h := (List.mem_filter.mp hmem).2
    simp only [HardFilters.annotateRow, decide_eq_true_eq] at h
    omega

/-- C8 witness for the amended claim: the concrete failing sample's annotated
row is present in the output of `compute_hard_filters`. -/
theorem compute_hard_filters_returns_failing_only_witness :
    HardFilters.annotateRow false Examples.exCutoffs Examples.failingSample
      ∈ HardFilters.computeHardFilters false Examples.exCutoffs
          [Examples.failingSample] :=
  (compute_hard_filters_returns_failing_only false Examples.exCutoffs
    [Examples.failingSample]).2.1 Examples.failingSample (by simp) (by decide)

namespace Ancestry

lemma loopGo_not_exceed (fit : List ScoreRow → Nat → String)
    (maxNum : Option Nat) (maxQ : ℚ) (fuel : Nat) (scores : List ScoreRow)
    (popRows : List PopRow) (n : Nat) (p : ℚ) (iter : Nat)
    (h : ¬ mislabeledSelect maxNum n p > maxQ) :
    loopGo fit maxNum maxQ fuel scores popRows n p iter
      = .ok iter n p popRows := by
  cases fuel <;> simp [loopGo, h]

lemma loopGo_spec (fit : List ScoreRow → Nat → String) (m : Nat)
    (hm : m ≠ 0) :
    ∀ (fuel : Nat) (scores : List ScoreRow) (popRows : List PopRow)
      (n : Nat) (p : ℚ) (iter : Nat),
      (∀ i n' p' rows,
        loopGo fit (some m) (m : ℚ) fuel scores popRows n p iter
          = .ok i n' p' rows → iter ≤ i ∧ n' ≤ m ∧ (n > m → iter < i))
      ∧ (∀ i,
        loopGo fit (some m) (m : ℚ) fuel scores popRows n p iter
          = .emptyTrainingError i → iter < i) := by
  intro fuel
  induction fuel with
  | zero =>
    intro scores popRows n p iter
    constructor
    · intro i n' p' rows h
      by_cases hcond : mislabeledSelect (some m) n p > (m : ℚ)
      · simp [loopGo, hcond] at h
      · rw [loopGo_not_exceed fit (some m) (m : ℚ) 0 scores popRows n p iter
          hcond] at h
        cases h
        have hle : n ≤ m := by
          simp only [mislabeledSelect, if_pos hm] at hcond
          exact_mod_cast not_lt.mp hcond
        exact ⟨le_refl _, hle, fun hgt => absurd hgt (not_lt.mpr hle)⟩
    · intro i h
      by_cases hcond : mislabeledSelect (some m) n p > (m : ℚ)
      · simp [loopGo, hcond] at h
      · rw [loopGo_not_exceed fit (some m) (m : ℚ) 0 scores popRows n p iter
          hcond] at h
        cases h
  | succ fuel ih =>
    intro scores popRows n p iter
    by_cases hcond : mislabeledSelect (some m) n p > (m : ℚ)
    · constructor
      · intro i n' p' rows h
        simp only [loopGo, if_pos hcond] at h
        rcases hcalc : calcMislabeled
            (assignPopulationPcs fit (pruneScores scores popRows)) with
          _ | ⟨n2, p2⟩
        · rw [hcalc] at h
          cases h
        · rw [hcalc] at h
          have hspec := (ih (pruneScores scores popRows)
            (assignPopulationPcs fit (pruneScores scores popRows)) n2 p2
            (iter + 1)).1 i n' p' rows h
          exact ⟨le_trans (Nat.le_succ iter) hspec.1, hspec.2.1,
            fun _ => lt_of_lt_of_le (Nat.lt_succ_self iter) hspec.1⟩
      · intro i h
        simp only [loopGo, if_pos hcond] at h
        rcases hcalc : calcMislabeled
            (assignPopulationPcs fit (pruneScores scores popRows)) with
          _ | ⟨n2, p2⟩
        · rw [hcalc] at h
          cases h
          exact Nat.lt_succ_self iter
        · rw [hcalc] at h
          have hspec := (ih (pruneScores scores popRows)
            (assignPopulationPcs fit (pruneScores scores popRows)) n2 p2
            (iter + 1)).2 i h
          exact lt_trans (Nat.lt_succ_self iter) hspec
    · constructor
      · intro i n' p' rows h
        rw [loopGo_not_exceed fit (some m) (m : ℚ) (fuel + 1) scores popRows
          n p iter hcond] at h
        cases h
        have hle : n ≤ m := by
          simp only [mislabeledSelect, if_pos hm] at hcond
          exact_mod_cast not_lt.mp hcond
        exact ⟨le_refl _, hle, fun hgt => absurd hgt (not_lt.mpr hle)⟩
      · intro i h
        rw [loopGo_not_exceed fit (some m) (m : ℚ) (fuel + 1) scores popRows
          n p iter hcond] at h
        cases h

end Ancestry

/-- C4: the RF convergence loop refits only while the mislabel statistic
exceeds the configured maximum.  For an input where the first fit mislabels
exactly 3 of 10 training samples: with
`max_number_mislabeled_training_samples = 5` the loop body never runs and
`pop_assignment_iterations = 1` (exactly one fit); with the cutoff set to 2,
any normal termination has performed at least two fits and ends with at most
2 mislabels, and the empty-training error can likewise only occur from the
second fit on. -/
theorem assign_pops_mislabel_loop_iterations
    (fit : List Ancestry.ScoreRow → Nat → String)
    (scores : List Ancestry.ScoreRow) (fuel : Nat)
    (h10 : Ancestry.definedTraining
      (Ancestry.assignPopulationPcs fit scores) = 10)
    (h3 : Ancestry.nMislabeled
      (Ancestry.assignPopulationPcs fit scores) = 3) :
    Ancestry.assignPops fit (some 5) none scores fuel
      = Ancestry.RfResult.ok 1 3 ((3 : ℚ) / 10)
          (Ancestry.assignPopulationPcs fit scores)
    ∧ (∀ i n p rows, Ancestry.assignPops fit (some 2) none scores fuel
        = Ancestry.RfResult.ok i n p rows → 2 ≤ i ∧ n ≤ 2)
    ∧ (∀ i, Ancestry.assignPops fit (some 2) none scores fuel
        = Ancestry.RfResult.emptyTrainingError i → 2 ≤ i) := by
  have hcalc : Ancestry.calcMislabeled (Ancestry.assignPopulationPcs fit scores)
      = some (3, (3 : ℚ) / 10) := by
    unfold Ancestry.calcMislabeled
    rw [h10, h3]
    norm_num
  refine ⟨?_, ?_, ?_⟩
  · show Ancestry.assignPops fit (some 5) none scores fuel = _
    unfold Ancestry.assignPops
    dsimp only
    rw [hcalc]
    refine Ancestry.loopGo_not_exceed fit (some 5) _ fuel scores _ 3 _ 1 ?_
    norm_num [Ancestry.mislabeledSelect]
  · intro i n p rows h
    unfold Ancestry.assignPops at h
    dsimp only at h
    rw [hcalc] at h
    have hspec := (Ancestry.loopGo_spec fit 2 (by norm_num) fuel scores
      (Ancestry.assignPopulationPcs fit scores) 3 ((3 : ℚ) / 10) 1).1
      i n p rows (by exact_mod_cast h)
    exact ⟨hspec.2.2 (by norm_num), hspec.2.1⟩
  · intro i h
    unfold Ancestry.assignPops at h
    dsimp only at h
    rw [hcalc] at h
    have hspec := (Ancestry.loopGo_spec fit 2 (by norm_num) fuel scores
      (Ancestry.assignPopulationPcs fit scores) 3 ((3 : ℚ) / 10) 1).2
      i (by exact_mod_cast h)
    omega

/-- C4 witness: with the concrete classifier that labels every sample `afr`
and ten training samples of which three carry the label `eas`, the run with
cutoff 5 terminates after exactly one fit. -/
theorem assign_pops_mislabel_loop_iterations_witness :
    Ancestry.assignPops Examples.exFit (some 5) none Examples.exScores10 5
      = Ancestry.RfResult.ok 1 3 ((3 : ℚ) / 10)
          (Ancestry.assignPopulationPcs Examples.exFit Examples.exScores10) :=
  (assign_pops_mislabel_loop_iterations Examples.exFit Examples.exScores10 5
    (by decide) (by decide)).1

/-- C5: when the training set is empty — either from the start or after the
loop prunes every remaining training label — `assign_pops` raises (the
division in `calculate_mislabeled_training` fails on a zero denominator,
modelled as the `emptyTrainingError` outcome) instead of returning a normal
assignment table. -/
theorem assign_pops_empty_training_raises :
    (∀ (fit : List Ancestry.ScoreRow → Nat → String) (m : Nat)
       (scores : List Ancestry.ScoreRow) (fuel : Nat),
       Ancestry.definedTraining (Ancestry.assignPopulationPcs fit scores) = 0 →
       Ancestry.assignPops fit (some m) none scores fuel
         = Ancestry.RfResult.emptyTrainingError 1)
    ∧ (∀ (fit : List Ancestry.ScoreRow → Nat → String) (m : Nat) (fuel : Nat)
         (scores : List Ancestry.ScoreRow) (popRows : List Ancestry.PopRow)
         (n : Nat) (p : ℚ) (iter : Nat),
        Ancestry.mislabeledSelect (some m) n p > (m : ℚ) →
        Ancestry.definedTraining (Ancestry.assignPopulationPcs fit
          (Ancestry.pruneScores scores popRows)) = 0 →
        Ancestry.loopGo fit (some m) (m : ℚ) (fuel + 1) scores popRows n p iter
          = Ancestry.RfResult.emptyTrainingError (iter + 1)) := by
  constructor
  · intro fit m scores fuel h0
    have hcalc : Ancestry.calcMislabeled
        (Ancestry.assignPopulationPcs fit scores) = none := by
      unfold Ancestry.calcMislabeled
      rw [h0]
      simp
    unfold Ancestry.assignPops
    dsimp only
    rw [hcalc]
  · intro fit m fuel scores popRows n p iter hgt h0
    have hcalc : Ancestry.calcMislabeled (Ancestry.assignPopulationPcs fit
        (Ancestry.pruneScores scores popRows)) = none := by
      unfold Ancestry.calcMislabeled
      rw [h0]
      simp
    simp only [Ancestry.loopGo, if_pos hgt]
    rw [hcalc]

/-- C5 witness: a run whose scores table has no defined training label errors
at the first fit, and a loop state whose pruning removes the only training
label errors at the following fit. -/
theorem assign_pops_empty_training_raises_witness :
    Ancestry.assignPops Examples.exFitEas (some 1) none
        Examples.exScoresNoTrain 2
      = Ancestry.RfResult.emptyTrainingError 1
    ∧ Ancestry.loopGo Examples.exFitEas (some 0) ((0 : Nat) : ℚ) 1
        Examples.exScoresOne Examples.exPopOne 1 1 1
      = Ancestry.RfResult.emptyTrainingError 2 :=
  ⟨assign_pops_empty_training_raises.1 Examples.exFitEas 1
      Examples.exScoresNoTrain 2 (by decide),
   assign_pops_empty_training_raises.2 Examples.exFitEas 0 0
      Examples.exScoresOne Examples.exPopOne 1 1 1 (by decide) (by decide)⟩

lemma freq_take_filter {α : Type} :
    ∀ (L : List FreqMeta) (F : List α) (k : Nat),
      k ≤ L.length → F.length = L.length →
      (∀ i (h : i < L.length), keepMeta (L.get ⟨i, h⟩) = true ↔ i < k) →
      L.filter keepMeta = L.take k
      ∧ ((L.zip F).filter (fun p => keepMeta p.1)).map Prod.snd = F.take k := by
  intro L
  induction L with
  | nil =>
    intro F k hk hlen _
    have hF : F = [] := List.length_eq_zero.mp (by simpa using hlen)
    subst hF
    simp
  | cons mhd L ih =>
    intro F k hk hlen hlay
    cases F with
    | nil => simp at hlen
    | cons a F =>
      have hlen' : F.length = L.length := by simpa using hlen
      cases k with
      | zero =>
        have hhd : keepMeta mhd = false := by
          have h0 := hlay 0 (by simp)
          simpa using h0
        have hlayL : ∀ i (h : i < L.length),
            keepMeta (L.get ⟨i, h⟩) = true ↔ i < 0 := by
          intro i h
          have hs := hlay (i + 1) (by simpa using Nat.succ_lt_succ h)
          simpa using hs
        obtain ⟨h1, h2⟩ := ih F 0 (Nat.zero_le _) hlen' hlayL
        constructor
        · simp [List.filter_cons, hhd, h1]
        · simp [List.zip_cons_cons, List.filter_cons, hhd, h2]
      | succ k =>
        have hhd : keepMeta mhd = true := (hlay 0 (by simp)).mpr (Nat.succ_pos k)
        have hk' : k ≤ L.length := by
          simpa using Nat.le_of_succ_le_succ hk
        have hlayL : ∀ i (h : i < L.length),
            keepMeta (L.get ⟨i, h⟩) = true ↔ i < k := by
          intro i h
          have hs := hlay (i + 1) (by simpa using Nat.succ_lt_succ h)
          simpa [Nat.succ_lt_succ_iff] using hs
        obtain ⟨h1, h2⟩ := ih F k hk' hlen' hlayL
        constructor
        · simp [List.filter_cons, hhd, h1]
        · simp [List.zip_cons_cons, List.filter_cons, hhd, h2]

/-- C1: provided the input release table satisfies the documented invariants
— the frequency array and the full metadata list have equal length, position
`i` of the metadata describes position `i` of the array, and the
downsampling/subset entries all come after the plain entries (layout
witnessed by `k`) — then the `gnomad_freq` slice
`keyed_release.freq[:len(freq_meta)]` built by `prepare_variant_annotations`
has the same length as the stripped `gnomad_freq_meta`, position `i` of the
stripped metadata describes position `i` of the slice, and the slice keeps
exactly the array entries whose metadata entries were kept. -/
theorem freq_meta_positional_slice_consistent {α : Type}
    (describes : FreqMeta → α → Prop) (fullMeta : List FreqMeta)
    (freq : List α) (k : Nat)
    (hk : k ≤ fullMeta.length)
    (hlen : freq.length = fullMeta.length)
    (hlayout : ∀ i (h : i < fullMeta.length),
      keepMeta (fullMeta.get ⟨i, h⟩) = true ↔ i < k)
    (hdesc : ∀ i (h1 : i < fullMeta.length) (h2 : i < freq.length),
      describes (fullMeta.get ⟨i, h1⟩) (freq.get ⟨i, h2⟩)) :
    (gnomadFreqSlice fullMeta freq).length = (strippedFreqMeta fullMeta).length
    ∧ (∀ i (h1 : i < (strippedFreqMeta fullMeta).length)
         (h2 : i < (gnomadFreqSlice fullMeta freq).length),
        describes ((strippedFreqMeta fullMeta).get ⟨i, h1⟩)
          ((gnomadFreqSlice fullMeta freq).get ⟨i, h2⟩))
    ∧ gnomadFreqSlice fullMeta freq
        = ((fullMeta.zip freq).filter (fun p => keepMeta p.1)).map Prod.snd := by
  obtain ⟨hfil, hzip⟩ := freq_take_filter fullMeta freq k hk hlen hlayout
  have hstrip : strippedFreqMeta fullMeta = fullMeta.take k := hfil
  have hslen : (strippedFreqMeta fullMeta).length = k := by
    rw [hstrip, List.length_take]
    exact Nat.min_eq_left hk
  have hkF : k ≤ freq.length := by rw [hlen]; exact hk
  have hslice : gnomadFreqSlice fullMeta freq = freq.take k := by
    rw [gnomadFreqSlice, hslen]
  have hglen : (gnomadFreqSlice fullMeta freq).length = k := by
    rw [hslice, List.length_take]
    exact Nat.min_eq_left hkF
  refine ⟨by rw [hglen, hslen], ?_, by rw [hslice, hzip]⟩
  intro i h1 h2
  have hi : i < k := by rw [hslen] at h1; exact h1
  have hiM : i < fullMeta.length := lt_of_lt_of_le hi hk
  have hiF : i < freq.length := lt_of_lt_of_le hi hkF
  have e1 : (strippedFreqMeta fullMeta).get ⟨i, h1⟩ = fullMeta.get ⟨i, hiM⟩ := by
    rw [List.get_of_eq hstrip ⟨i, h1⟩]
    simp [List.get_eq_getElem, List.getElem_take]
  have e2 : (gnomadFreqSlice fullMeta freq).get ⟨i, h2⟩
      = freq.get ⟨i, hiF⟩ := by
    rw [List.get_of_eq hslice ⟨i, h2⟩]
    simp [List.get_eq_getElem, List.getElem_take]
  rw [e1, e2]
  exact hdesc i hiM hiF

/-- C1 witness: on a concrete four-entry release metadata list (two plain
entries, then one downsampling and one subset entry) with a parallel
frequency array, the slice and the stripped metadata agree as the theorem
states. -/
theorem freq_meta_positional_slice_consistent_witness :
    (gnomadFreqSlice Examples.fullMetaEx Examples.freqNatEx).length
      = (strippedFreqMeta Examples.fullMetaEx).length
    ∧ gnomadFreqSlice Examples.fullMetaEx Examples.freqNatEx
        = ((Examples.fullMetaEx.zip Examples.freqNatEx).filter
            (fun p => keepMeta p.1)).map Prod.snd
    ∧ Examples.describesEx
        ((strippedFreqMeta Examples.fullMetaEx).getD 0 [])
        ((gnomadFreqSlice Examples.fullMetaEx Examples.freqNatEx).getD 0 0) :=
  ⟨(freq_meta_positional_slice_consistent Examples.describesEx
      Examples.fullMetaEx Examples.freqNatEx 2 (by decide) (by decide)
      (by decide) (by decide)).1,
   (freq_meta_positional_slice_consistent Examples.describesEx
      Examples.fullMetaEx Examples.freqNatEx 2 (by decide) (by decide)
      (by decide) (by decide)).2.2,
   by decide⟩
